import Mathlib

/-!
Verification development for the numeric cast lowering engine (`src/cast.rs`).

The lowering functions `clif_intcast` and `clif_int_or_float_cast` are embedded
shallowly: the instruction-builder context (`FunctionCx` / `fx.bcx.ins()`) is a
state `Fx` accumulating the emitted straight-line instruction list, and a CLIF
`Value` is an index into that list (index 0 being the input operand).  The
emission API itself is external to the repository; its semantics (`evalInst`
below) are modelled from the specification's External Interfaces section and
glossary, with genuinely implementation-defined results (NaN results of the
saturating conversion instructions, results of the 128-bit runtime support
routines, int-to-float rounding, float demotion rounding) abstracted into an
`Impl` parameter.
-/

set_option linter.unusedVariables false

/-- CLIF scalar value types used by the cast lowering: the integer types,
the two float types, plus the non-numeric reference type `R64` (a type that is
neither `is_int` nor `is_float`, representing the category tags outside the
four documented int/float combinations). -/
inductive Ty where
  | I8 | I16 | I32 | I64 | I128 | F32 | F64 | R64
deriving DecidableEq

/-- `Type::is_int` of the CLIF type system: true exactly on scalar integer types. -/
def Ty.is_int : Ty → Bool
  | .I8 | .I16 | .I32 | .I64 | .I128 => true
  | _ => false

/-- `Type::is_float`: true exactly on the scalar float types. -/
def Ty.is_float : Ty → Bool
  | .F32 | .F64 => true
  | _ => false

/-- Bit width of a CLIF type. -/
def Ty.bits : Ty → Nat
  | .I8 => 8
  | .I16 => 16
  | .I32 => 32
  | .I64 => 64
  | .I128 => 128
  | .F32 => 32
  | .F64 => 64
  | .R64 => 64

/-- `Type::wider_or_equal`: `a.wider_or_equal b` iff `a` has at least as many
bits as `b` (scalar lane counts always agree here). -/
def Ty.wider_or_equal (a b : Ty) : Bool := b.bits ≤ a.bits

/-- Integer condition codes used by the lowering. -/
inductive IntCC where
  | SignedLessThan | SignedGreaterThan | UnsignedGreaterThan
deriving DecidableEq

/-- Float condition codes used by the lowering. -/
inductive FloatCC where
  | Equal
deriving DecidableEq

/-- The Rust-level types occurring in the 128-bit runtime-routine calls
(`fx.tcx.types.i128` etc.). -/
inductive RustTy where
  | i128 | u128 | f32 | f64
deriving DecidableEq

/-- CLIF type of a Rust scalar type (layout of the call argument/result). -/
def RustTy.clifTy : RustTy → Ty
  | .i128 => .I128
  | .u128 => .I128
  | .f32 => .F32
  | .f64 => .F64

/-- A CLIF value: an index into the emission trace (inputs first, then one
value per emitted instruction). -/
abbrev Value := Nat

/-- One emitted CLIF instruction (or runtime-routine call, for `easy_call`).
Operands are `Value` indices into the trace. -/
inductive Inst where
  | iconst (ty : Ty) (imm : ℤ)
  | sextend (ty : Ty) (v : Value)
  | uextend (ty : Ty) (v : Value)
  | ireduce (ty : Ty) (v : Value)
  | fcvt_from_sint (ty : Ty) (v : Value)
  | fcvt_from_uint (ty : Ty) (v : Value)
  | fcvt_to_sint_sat (ty : Ty) (v : Value)
  | fcvt_to_uint_sat (ty : Ty) (v : Value)
  | fpromote (ty : Ty) (v : Value)
  | fdemote (ty : Ty) (v : Value)
  | icmp_imm (cc : IntCC) (v : Value) (imm : ℤ)
  | fcmp (cc : FloatCC) (a b : Value)
  | select (c a b : Value)
  | call (name : String) (arg : Value) (argTy retTy : RustTy)
deriving DecidableEq

/-- The builder state standing in for `FunctionCx`: the types of all values
produced so far (inputs followed by one entry per emitted instruction) and the
emitted straight-line instruction list. -/
structure Fx where
  tys : List Ty
  insts : List Inst
deriving DecidableEq

/-- `fx.bcx.func.dfg.value_type(v)`. -/
def Fx.value_type (fx : Fx) (v : Value) : Ty := fx.tys.getD v .R64

/-- Append one instruction, returning the `Value` holding its result. -/
def Fx.emit (fx : Fx) (i : Inst) (ty : Ty) : Value × Fx :=
  (fx.tys.length, ⟨fx.tys ++ [ty], fx.insts ++ [i]⟩)

def Fx.iconst (fx : Fx) (ty : Ty) (imm : ℤ) : Value × Fx :=
  fx.emit (.iconst ty imm) ty

def Fx.sextend (fx : Fx) (ty : Ty) (v : Value) : Value × Fx :=
  fx.emit (.sextend ty v) ty

def Fx.uextend (fx : Fx) (ty : Ty) (v : Value) : Value × Fx :=
  fx.emit (.uextend ty v) ty

def Fx.ireduce (fx : Fx) (ty : Ty) (v : Value) : Value × Fx :=
  fx.emit (.ireduce ty v) ty

def Fx.fcvt_from_sint (fx : Fx) (ty : Ty) (v : Value) : Value × Fx :=
  fx.emit (.fcvt_from_sint ty v) ty

def Fx.fcvt_from_uint (fx : Fx) (ty : Ty) (v : Value) : Value × Fx :=
  fx.emit (.fcvt_from_uint ty v) ty

def Fx.fcvt_to_sint_sat (fx : Fx) (ty : Ty) (v : Value) : Value × Fx :=
  fx.emit (.fcvt_to_sint_sat ty v) ty

def Fx.fcvt_to_uint_sat (fx : Fx) (ty : Ty) (v : Value) : Value × Fx :=
  fx.emit (.fcvt_to_uint_sat ty v) ty

def Fx.fpromote (fx : Fx) (ty : Ty) (v : Value) : Value × Fx :=
  fx.emit (.fpromote ty v) ty

def Fx.fdemote (fx : Fx) (ty : Ty) (v : Value) : Value × Fx :=
  fx.emit (.fdemote ty v) ty

/-- Comparison results are materialized as 8-bit integer values (0 or 1). -/
def Fx.icmp_imm (fx : Fx) (cc : IntCC) (v : Value) (imm : ℤ) : Value × Fx :=
  fx.emit (.icmp_imm cc v imm) .I8

def Fx.fcmp (fx : Fx) (cc : FloatCC) (a b : Value) : Value × Fx :=
  fx.emit (.fcmp cc a b) .I8

def Fx.select (fx : Fx) (c a b : Value) : Value × Fx :=
  fx.emit (.select c a b) (fx.value_type a)

/-- `fx.easy_call(&name, &[CValue::by_val(arg, fx.layout_of(argTy))], retTy)`
followed by `.load_scalar(fx)`: one runtime-routine call taking one scalar
operand and producing one scalar result of `retTy`'s CLIF type. -/
def Fx.easy_call (fx : Fx) (name : String) (arg : Value) (argTy retTy : RustTy) :
    Value × Fx :=
  fx.emit (.call name arg argTy retTy) retTy.clifTy

/-- The session options consumed: the three-state
`fx.tcx.sess.opts.unstable_opts.saturating_float_casts` flag. -/
structure Sess where
  saturating_float_casts : Option Bool
deriving DecidableEq

/-- `clif_intcast` from `src/cast.rs`: integer-to-integer cast (`to` is a
reserved token in Lean, so the `to` parameter is spelled `to_ty`). -/
def clif_intcast (fx : Fx) (val : Value) (to_ty : Ty) (signed : Bool) : Value × Fx :=
  let frm := fx.value_type val
  if frm = to_ty then
    (val, fx)
  else if to_ty.wider_or_equal frm then
    if signed then fx.sextend to_ty val else fx.uextend to_ty val
  else
    fx.ireduce to_ty val

/-- The `format!("__float{sign}ti{flt}f", ...)` routine name of the
i128/u128-to-float path (`None` models the `unreachable!` on a non-float
destination). -/
def float128_name (from_signed : Bool) (to_ty : Ty) : Option String :=
  (match to_ty with
    | .F32 => some "s"
    | .F64 => some "d"
    | _ => none).map
    (fun flt => "__float" ++ (if from_signed then "" else "un") ++ "ti" ++ flt ++ "f")

/-- The `format!("__fix{sign}{flt}fti", ...)` routine name of the
float-to-i128/u128 path. -/
def fix128_name (to_signed : Bool) (from_ty : Ty) : Option String :=
  (match from_ty with
    | .F32 => some "s"
    | .F64 => some "d"
    | _ => none).map
    (fun flt => "__fix" ++ (if to_signed then "" else "uns") ++ flt ++ "fti")

/-- The Rust float type matching a CLIF float type (the
`match ty { F32 => f32, F64 => f64, _ => unreachable!() }` computations). -/
def rust_float_ty : Ty → Option RustTy
  | .F32 => some .f32
  | .F64 => some .f64
  | _ => none

/-- The `(min, max)` literal-bound table of the 8/16-bit saturating
float-to-int path (`None` models the `unreachable!` arm). -/
def small_int_bounds : Ty → Bool → Option (ℤ × ℤ)
  | .I8, false => some (0, 255)
  | .I16, false => some (0, 65535)
  | .I8, true => some (-128, 127)
  | .I16, true => some (-32768, 32767)
  | _, _ => none

/-- `clif_int_or_float_cast` from `src/cast.rs`.  `none` models the
`unreachable!` aborts. -/
def clif_int_or_float_cast (sess : Sess) (fx : Fx) (from_val : Value)
    (from_signed : Bool) (to_ty : Ty) (to_signed : Bool) : Option (Value × Fx) :=
  let from_ty := fx.value_type from_val
  if from_ty.is_int && to_ty.is_int then
    -- int-like -> int-like; only the source signedness is passed on
    some (clif_intcast fx from_val to_ty from_signed)
  else if from_ty.is_int && to_ty.is_float then
    if from_ty = .I128 then
      match float128_name from_signed to_ty, rust_float_ty to_ty with
      | some name, some to_rust_ty =>
        some (fx.easy_call name from_val
          (if from_signed then .i128 else .u128) to_rust_ty)
      | _, _ => none
    else
      -- int-like -> float
      if from_signed then
        some (fx.fcvt_from_sint to_ty from_val)
      else
        some (fx.fcvt_from_uint to_ty from_val)
  else if from_ty.is_float && to_ty.is_int then
    (do
      let (val, fx) ←
        if to_ty = .I128 then
          match fix128_name to_signed from_ty, rust_float_ty from_ty with
          | some name, some from_rust_ty =>
            some (fx.easy_call name from_val from_rust_ty
              (if to_signed then .i128 else .u128))
          | _, _ => none
        else if to_ty = .I8 || to_ty = .I16 then
          match small_int_bounds to_ty to_signed with
          | none => none
          | some (mn, mx) =>
            let (val, fx) :=
              if to_signed then fx.fcvt_to_sint_sat .I32 from_val
              else fx.fcvt_to_uint_sat .I32 from_val
            let (min_val, fx) := fx.iconst .I32 mn
            let (max_val, fx) := fx.iconst .I32 mx
            let (val, fx) :=
              if to_signed then
                let (has_underflow, fx) := fx.icmp_imm .SignedLessThan val mn
                let (has_overflow, fx) := fx.icmp_imm .SignedGreaterThan val mx
                let (bottom_capped, fx) := fx.select has_underflow min_val val
                fx.select has_overflow max_val bottom_capped
              else
                let (has_overflow, fx) := fx.icmp_imm .UnsignedGreaterThan val mx
                fx.select has_overflow max_val val
            some (fx.ireduce to_ty val)
        else if to_signed then
          some (fx.fcvt_to_sint_sat to_ty from_val)
        else
          some (fx.fcvt_to_uint_sat to_ty from_val)
      if sess.saturating_float_casts = some false then
        pure (val, fx)
      else
        let (is_not_nan, fx) := fx.fcmp .Equal from_val from_val
        let (zero_val, fx) := fx.iconst to_ty 0
        pure (fx.select is_not_nan val zero_val))
  else if from_ty.is_float && to_ty.is_float then
    -- float -> float
    some (match from_ty, to_ty with
      | .F32, .F64 => fx.fpromote .F64 from_val
      | .F64, .F32 => fx.fdemote .F32 from_val
      | _, _ => (from_val, fx))
  else
    none

/-- Round a rational toward zero (the rounding rule of the saturating
float-to-int conversion instructions). -/
def rtz (q : ℚ) : ℤ := if 0 ≤ q then ⌊q⌋ else ⌈q⌉

/-- Unsigned encoding of an integer into `w` bits: the canonical
representative in `[0, 2^w)`. -/
def uencode (w : ℕ) (n : ℤ) : ℤ := n % (2 : ℤ) ^ w

/-- Signed reading of a `w`-bit pattern (two's complement). -/
def sdecode (w : ℕ) (b : ℤ) : ℤ := if b < 2 ^ (w - 1) then b else b - 2 ^ w

/-- Semantic value of a float operand: NaN, a signed infinity, or a finite
value (every finite IEEE float value is a rational number). -/
inductive FloatVal where
  | nan
  | inf (neg : Bool)
  | finite (q : ℚ)
deriving DecidableEq

/-- A runtime value flowing through the emitted instructions: a `w`-bit
integer pattern, a float, or poison (the value of an ill-formed operand
reference, never produced on the paths the theorems traverse). -/
inductive Val where
  | intv (w : ℕ) (bits : ℤ)
  | floatv (f : FloatVal)
  | poison
deriving DecidableEq

/-- A finite binary32 value: `m * 2 ^ e` with at most 24 significand bits and
the binary32 exponent range (subnormals included). -/
def Repr32q (q : ℚ) : Prop :=
  ∃ m e : ℤ, m.natAbs < 2 ^ 24 ∧ -149 ≤ e ∧ e ≤ 104 ∧ q = (m : ℚ) * (2 : ℚ) ^ e

/-- A float operand representable in binary32 (NaN and the infinities are). -/
def Repr32Val : FloatVal → Prop
  | .nan => True
  | .inf _ => True
  | .finite q => Repr32q q

/-- Modelled from the spec: the implementation-defined / external parts of the
instruction-emission API and the runtime support-routine linkage, which live
outside this repository.  `satNan` is the bit pattern a saturating
float-to-int conversion produces for a NaN operand ("an undefined or
implementation-defined pattern for NaN inputs", spec 4.3.2); `callF` is the
result of a 128-bit runtime support routine; `intToFloat` is the rounding of
the int-to-float conversion instructions; `demote` is the binary64-to-binary32
demotion, constrained per spec 4.4 to be exact on values binary64 and binary32
share (the standard rounding rule returns representable values unchanged). -/
structure Impl where
  satNan : Bool → ℕ → ℤ
  callF : String → Val → Val
  intToFloat : Bool → ℕ → ℤ → FloatVal
  demote : FloatVal → FloatVal
  demote_exact : ∀ v, Repr32Val v → demote v = v

/-- Modelled from the spec: saturating signed float-to-int conversion
(glossary: out-of-range magnitudes clamp to the destination's bounds; rounding
is toward zero; the NaN result is implementation-defined). Returns the
`w`-bit result pattern. -/
def satSBits (impl : Impl) (w : ℕ) : FloatVal → ℤ
  | .nan => uencode w (impl.satNan true w)
  | .inf neg => if neg then uencode w (-(2 ^ (w - 1))) else uencode w (2 ^ (w - 1) - 1)
  | .finite q => uencode w (max (-(2 ^ (w - 1))) (min (rtz q) (2 ^ (w - 1) - 1)))

/-- Modelled from the spec: saturating unsigned float-to-int conversion. -/
def satUBits (impl : Impl) (w : ℕ) : FloatVal → ℤ
  | .nan => uencode w (impl.satNan false w)
  | .inf neg => if neg then 0 else uencode w (2 ^ w - 1)
  | .finite q => uencode w (max 0 (min (rtz q) (2 ^ w - 1)))

/-- Modelled from the spec: float equality comparison — NaN compares unequal
to everything (a float "is NaN if and only if it does not equal itself"). -/
def floatEq : FloatVal → FloatVal → Bool
  | .nan, _ => false
  | _, .nan => false
  | a, b => a = b

/-- Modelled from the spec: integer compare-with-immediate; the immediate is
interpreted at the operand's width, per the condition code's signedness. -/
def icmpEval (cc : IntCC) (w : ℕ) (b imm : ℤ) : Bool :=
  match cc with
  | .SignedLessThan => sdecode w b < sdecode w (uencode w imm)
  | .SignedGreaterThan => sdecode w (uencode w imm) < sdecode w b
  | .UnsignedGreaterThan => uencode w imm < b

/-- Modelled from the spec: value semantics of one emitted instruction over
the environment of previously produced values (spec section External
Interfaces, plus the glossary's widen/narrow/saturate/promote definitions). -/
def evalInst (impl : Impl) (env : List Val) (i : Inst) : Val :=
  match i with
  | .iconst ty imm => .intv ty.bits (uencode ty.bits imm)
  | .sextend ty v =>
    match env.getD v .poison with
    | .intv w b => .intv ty.bits (uencode ty.bits (sdecode w b))
    | _ => .poison
  | .uextend ty v =>
    match env.getD v .poison with
    | .intv _ b => .intv ty.bits (uencode ty.bits b)
    | _ => .poison
  | .ireduce ty v =>
    match env.getD v .poison with
    | .intv _ b => .intv ty.bits (uencode ty.bits b)
    | _ => .poison
  | .fcvt_from_sint ty v =>
    match env.getD v .poison with
    | .intv w b => .floatv (impl.intToFloat true ty.bits (sdecode w b))
    | _ => .poison
  | .fcvt_from_uint ty v =>
    match env.getD v .poison with
    | .intv _ b => .floatv (impl.intToFloat false ty.bits b)
    | _ => .poison
  | .fcvt_to_sint_sat ty v =>
    match env.getD v .poison with
    | .floatv f => .intv ty.bits (satSBits impl ty.bits f)
    | _ => .poison
  | .fcvt_to_uint_sat ty v =>
    match env.getD v .poison with
    | .floatv f => .intv ty.bits (satUBits impl ty.bits f)
    | _ => .poison
  | .fpromote ty v =>
    match env.getD v .poison with
    | .floatv f => .floatv f
    | _ => .poison
  | .fdemote ty v =>
    match env.getD v .poison with
    | .floatv f => .floatv (impl.demote f)
    | _ => .poison
  | .icmp_imm cc v imm =>
    match env.getD v .poison with
    | .intv w b => .intv 8 (if icmpEval cc w b imm then 1 else 0)
    | _ => .poison
  | .fcmp cc a b =>
    match env.getD a .poison, env.getD b .poison with
    | .floatv fa, .floatv fb =>
      .intv 8 (if (match cc with | .Equal => floatEq fa fb) then 1 else 0)
    | _, _ => .poison
  | .select c a b =>
    match env.getD c .poison with
    | .intv _ bits => if bits ≠ 0 then env.getD a .poison else env.getD b .poison
    | _ => .poison
  | .call name arg argTy retTy => impl.callF name (env.getD arg .poison)

/-- Evaluate an emission trace left to right, extending the environment by one
value per instruction. -/
def denote (impl : Impl) (inputs : List Val) (insts : List Inst) : List Val :=
  insts.foldl (fun env i => env ++ [evalInst impl env i]) inputs

/-- A fresh builder context holding the single input operand of type `t`
(the `from` value, index 0). -/
def initFx (t : Ty) : Fx := ⟨[t], []⟩

/-- Run the cast lowering on a fresh context with one input of type `fty`. -/
def runCast (sess : Sess) (fty : Ty) (fs : Bool) (tty : Ty) (ts : Bool) :
    Option (Value × Fx) :=
  clif_int_or_float_cast sess (initFx fty) 0 fs tty ts

/-- The semantic value a lowering result denotes, given the input's value. -/
def castVal (impl : Impl) (v0 : Val) (res : Value × Fx) : Val :=
  (denote impl [v0] res.2.insts).getD res.1 .poison

/-- The instruction that produced value `v` (inputs have none). -/
def Fx.instOf (fx : Fx) (v : Value) : Option Inst :=
  fx.insts.get? (v - (fx.tys.length - fx.insts.length))

/-- A concrete instantiation of the implementation-defined behaviors, used by
the witness theorems: demotion is the identity. -/
def impl0 : Impl where
  satNan := fun _ _ => 0
  callF := fun _ _ => .intv 128 0
  intToFloat := fun _ _ _ => .nan
  demote := id
  demote_exact := fun _ _ => rfl

/-- A second instantiation whose saturating conversions and runtime routines
produce the nonzero pattern 1 for NaN operands, witnessing that nothing in
the flag-disabled path forces a NaN result to zero. -/
def impl1 : Impl where
  satNan := fun _ _ => 1
  callF := fun _ _ => .intv 128 1
  intToFloat := fun _ _ _ => .nan
  demote := id
  demote_exact := fun _ _ => rfl

deriving instance Fintype for Ty

/-- Closed form of the emission trace the float-to-int path produces for an
8/16-bit destination: a 32-bit saturating conversion, the two bound constants,
compare-and-select clamping, then a narrowing `ireduce` (proved equal to the
lowering's output in `runCast_float_to_int`). -/
def smallSatRes (fty tty : Ty) (ts : Bool) (mn mx : ℤ) : Value × Fx :=
  if ts then
    (8, ⟨[fty, .I32, .I32, .I32, .I8, .I8, .I32, .I32, tty],
         [.fcvt_to_sint_sat .I32 0, .iconst .I32 mn, .iconst .I32 mx,
          .icmp_imm .SignedLessThan 1 mn, .icmp_imm .SignedGreaterThan 1 mx,
          .select 4 2 1, .select 5 3 6, .ireduce tty 7]⟩)
  else
    (6, ⟨[fty, .I32, .I32, .I32, .I8, .I32, tty],
         [.fcvt_to_uint_sat .I32 0, .iconst .I32 mn, .iconst .I32 mx,
          .icmp_imm .UnsignedGreaterThan 1 mx, .select 4 3 1, .ireduce tty 5]⟩)

/-- Append the NaN-safety stage (when `nanStage` is true) to a magnitude
conversion result: self-equality `fcmp`, a zero constant, and the final
data-dependent `select`. -/
def withNanStage (nanStage : Bool) (r : Value × Fx) (tty : Ty) : Value × Fx :=
  if nanStage then
    let n := r.2.tys.length
    (n + 2, ⟨r.2.tys ++ [.I8, tty, tty],
             r.2.insts ++ [.fcmp .Equal 0 0, .iconst tty 0, .select n r.1 (n + 1)]⟩)
  else r

/-- Closed form of the whole float-to-int lowering result as a function of the
type pair, destination signedness, and whether the NaN-safety stage runs. -/
def floatToIntRes (fty tty : Ty) (ts : Bool) (nanStage : Bool) : Option (Value × Fx) :=
  (match tty with
   | .I128 => (fix128_name ts fty).bind fun name =>
       (rust_float_ty fty).map fun frty =>
         ((1, ⟨[fty, .I128], [.call name 0 frty (if ts then .i128 else .u128)]⟩) : Value × Fx)
   | .I8 | .I16 => (small_int_bounds tty ts).map fun p : ℤ × ℤ =>
       smallSatRes fty tty ts p.1 p.2
   | .I32 | .I64 => some (if ts then (1, ⟨[fty, tty], [.fcvt_to_sint_sat tty 0]⟩)
                          else (1, ⟨[fty, tty], [.fcvt_to_uint_sat tty 0]⟩))
   | _ => none).map fun r => withNanStage nanStage r tty

/-- The lowering of every float-to-int request equals the closed form: the
NaN-safety stage is appended exactly when the `saturating_float_casts` flag is
not explicitly `false`. -/
theorem runCast_float_to_int (fl : Option Bool) (fty : Ty) (fs : Bool) (tty : Ty)
    (ts : Bool) (hf : fty.is_float = true) (ht : tty.is_int = true) :
    runCast ⟨fl⟩ fty fs tty ts =
      floatToIntRes fty tty ts (fl != some false) := by
  revert fl fty fs tty ts
  decide

/-- Follows the spec's words (4.3.2): the result value is produced by a
data-dependent `select` whose condition is a self-equality float comparison of
the original operand (value 0) and whose false arm is the destination-typed
constant zero. -/
def nanSelectShape (tty : Ty) (r : Value × Fx) : Bool :=
  match r.2.instOf r.1 with
  | some (.select c _ z) =>
    (match r.2.instOf c with | some (.fcmp .Equal 0 0) => true | _ => false) &&
    (match r.2.instOf z with | some (.iconst t k) => t = tty && k = 0 | _ => false)
  | _ => false

set_option maxHeartbeats 4000000 in
/-- C1: with the NaN-safety stage enabled (flag unset or explicitly enabled),
a NaN float operand makes `clif_int_or_float_cast` produce the destination
type's numeric zero, for every integer destination width and signedness, and
the substitution is a data-dependent select on a self-equality float
comparison of the original operand. -/
theorem c1_nan_zero_substitution (impl : Impl) (fl : Option Bool)
    (hfl : fl ≠ some false) (fty tty : Ty) (hf : fty.is_float = true)
    (ht : tty.is_int = true) (fs ts : Bool) :
    (runCast ⟨fl⟩ fty fs tty ts).map (castVal impl (.floatv .nan)) =
      some (.intv tty.bits 0) ∧
    Option.all (nanSelectShape tty) (runCast ⟨fl⟩ fty fs tty ts) = true := by
  have hb : (fl != some false) = true := by
    rcases fl with _ | b
    · rfl
    · cases b
      · exact absurd rfl hfl
      · rfl
  rw [runCast_float_to_int fl fty fs tty ts hf ht, hb]
  cases fty <;> simp only [Ty.is_float] at hf <;> try exact absurd hf (by decide)
  all_goals (cases tty <;> simp only [Ty.is_int] at ht <;> try exact absurd ht (by decide))
  all_goals cases ts
  all_goals refine ⟨?_, by decide⟩
  all_goals simp [floatToIntRes, smallSatRes, withNanStage, castVal, denote, evalInst,
      satSBits, satUBits, floatEq, icmpEval, uencode, sdecode, Ty.bits,
      fix128_name, rust_float_ty, small_int_bounds]

/-- Witness for C1 at a concrete instance: NaN cast to signed 32-bit with the
flag unset yields zero. -/
theorem c1_nan_zero_substitution_witness :
    (runCast ⟨none⟩ .F32 false .I32 true).map (castVal impl0 (.floatv .nan)) =
      some (.intv Ty.I32.bits 0) ∧
    Option.all (nanSelectShape .I32) (runCast ⟨none⟩ .F32 false .I32 true) = true :=
  c1_nan_zero_substitution impl0 none (by decide) .F32 .I32 rfl rfl false true

set_option maxHeartbeats 4000000 in
/-- C2: for an 8/16-bit destination the lowering first emits a 32-bit
saturating conversion per the destination signedness, then clamps with the
literal bound constants via compares and selects, then narrows (the
`smallSatRes` shape); the denoted result, read at the destination signedness,
is the input rounded toward zero and clamped to the destination bounds. -/
theorem c2_small_width_saturation (impl : Impl) (fl : Option Bool) (fty tty : Ty)
    (hf : fty.is_float = true) (ht : tty = .I8 ∨ tty = .I16) (fs ts : Bool) (q : ℚ) :
    ∃ mn mx : ℤ, small_int_bounds tty ts = some (mn, mx) ∧
      runCast ⟨fl⟩ fty fs tty ts =
        some (withNanStage (fl != some false) (smallSatRes fty tty ts mn mx) tty) ∧
      (runCast ⟨fl⟩ fty fs tty ts).map (castVal impl (.floatv (.finite q))) =
        some (.intv tty.bits (uencode tty.bits (max mn (min (rtz q) mx)))) ∧
      (if ts then sdecode tty.bits (uencode tty.bits (max mn (min (rtz q) mx)))
       else uencode tty.bits (max mn (min (rtz q) mx))) = max mn (min (rtz q) mx) := by
  rcases ht with rfl | rfl <;> rw [runCast_float_to_int fl fty fs _ ts hf (by decide)] <;>
    (cases fty <;> try exact absurd hf (by decide)) <;>
    cases ts <;> rcases fl with _ | b <;> try cases b
  all_goals refine ⟨_, _, rfl, by decide, ?_, ?_⟩
  all_goals first
    | (simp [Ty.bits, sdecode, uencode]; first | omega | (split_ifs <;> omega))
    | (simp [floatToIntRes, smallSatRes, withNanStage, castVal, denote, evalInst,
        satSBits, satUBits, floatEq, icmpEval, uencode, sdecode, Ty.bits, small_int_bounds];
       split_ifs <;> simp <;> omega)

/-- Witness for C2 at a concrete instance: `1e30` to signed 16-bit (the
clamped value is `32767`, the spec's example). -/
theorem c2_small_width_saturation_witness :
    ∃ mn mx : ℤ, small_int_bounds .I16 true = some (mn, mx) ∧
      runCast ⟨none⟩ .F64 false .I16 true =
        some (withNanStage ((none : Option Bool) != some false)
          (smallSatRes .F64 .I16 true mn mx) .I16) ∧
      (runCast ⟨none⟩ .F64 false .I16 true).map
          (castVal impl0 (.floatv (.finite ((10 : ℚ) ^ 30)))) =
        some (.intv Ty.I16.bits
          (uencode Ty.I16.bits (max mn (min (rtz ((10 : ℚ) ^ 30)) mx)))) ∧
      (if true then sdecode Ty.I16.bits
          (uencode Ty.I16.bits (max mn (min (rtz ((10 : ℚ) ^ 30)) mx)))
       else uencode Ty.I16.bits (max mn (min (rtz ((10 : ℚ) ^ 30)) mx))) =
        max mn (min (rtz ((10 : ℚ) ^ 30)) mx) :=
  c2_small_width_saturation impl0 none .F64 .I16 rfl (Or.inr rfl) false true ((10 : ℚ) ^ 30)

/-- Is this instruction a float comparison (the NaN-safety stage's probe)? -/
def Inst.isFcmp : Inst → Bool
  | .fcmp _ _ _ => true
  | _ => false

set_option maxHeartbeats 4000000 in
/-- C3: with `saturating_float_casts` explicitly disabled the lowering returns
the raw magnitude-conversion result — its trace contains no float comparison,
so the NaN zero-substitution stage is absent, and under an implementation
whose NaN conversion pattern is 1 a NaN input denotes 1, not 0 — while the
unset and explicitly-enabled flag states produce exactly the same magnitude
trace with the NaN-safety stage appended. -/
theorem c3_flag_disabled_bypasses_nan_stage (fty tty : Ty) (hf : fty.is_float = true)
    (ht : tty.is_int = true) (fs ts : Bool) :
    (runCast ⟨some false⟩ fty fs tty ts).isSome = true ∧
    Option.all (fun r => r.2.insts.all fun i => !i.isFcmp)
      (runCast ⟨some false⟩ fty fs tty ts) = true ∧
    (runCast ⟨some false⟩ fty fs tty ts).map (castVal impl1 (.floatv .nan)) =
      some (.intv tty.bits 1) ∧
    (Val.intv tty.bits 1 ≠ Val.intv tty.bits 0) ∧
    runCast ⟨none⟩ fty fs tty ts =
      (runCast ⟨some false⟩ fty fs tty ts).map (fun r => withNanStage true r tty) ∧
    runCast ⟨some true⟩ fty fs tty ts =
      (runCast ⟨some false⟩ fty fs tty ts).map (fun r => withNanStage true r tty) := by
  revert fty tty fs ts
  decide

/-- Witness for C3 at a concrete instance: NaN to unsigned 32-bit with the
flag explicitly disabled. -/
theorem c3_flag_disabled_bypasses_nan_stage_witness :
    (runCast ⟨some false⟩ .F32 false .I32 false).isSome = true ∧
    Option.all (fun r => r.2.insts.all fun i => !i.isFcmp)
      (runCast ⟨some false⟩ .F32 false .I32 false) = true ∧
    (runCast ⟨some false⟩ .F32 false .I32 false).map (castVal impl1 (.floatv .nan)) =
      some (.intv Ty.I32.bits 1) ∧
    (Val.intv Ty.I32.bits 1 ≠ Val.intv Ty.I32.bits 0) ∧
    runCast ⟨none⟩ .F32 false .I32 false =
      (runCast ⟨some false⟩ .F32 false .I32 false).map (fun r => withNanStage true r .I32) ∧
    runCast ⟨some true⟩ .F32 false .I32 false =
      (runCast ⟨some false⟩ .F32 false .I32 false).map (fun r => withNanStage true r .I32) :=
  c3_flag_disabled_bypasses_nan_stage .F32 .I32 rfl rfl false false

/-- The routine names produced across all 128-bit conversion paths:
both directions, both signednesses, both float widths. -/
def all128Names : List String :=
  [float128_name true .F32, float128_name true .F64,
   float128_name false .F32, float128_name false .F64,
   fix128_name true .F32, fix128_name true .F64,
   fix128_name false .F32, fix128_name false .F64].filterMap id

/-- Counterexample to C4 as stated: the distinct routine names used across
the 128-bit conversion paths number eight, not six. -/
theorem c4_counterexample_eight_names : all128Names.dedup.length = 8 ∧
    ¬ (all128Names.dedup.length = 6) := by decide

/-- The emission trace of an i128/u128-to-float conversion: one runtime call
with the `float128_name` routine name. -/
def call128ToFloat (fs : Bool) (fw : Ty) : Option (Value × Fx) :=
  (float128_name fs fw).bind fun name => (rust_float_ty fw).map fun rty =>
    (1, ⟨[.I128, fw], [.call name 0 (if fs then .i128 else .u128) rty]⟩)

/-- The magnitude-conversion trace of a float-to-i128/u128 conversion: one
runtime call with the `fix128_name` routine name. -/
def call128FromFloat (ts : Bool) (fw : Ty) : Option (Value × Fx) :=
  (fix128_name ts fw).bind fun name => (rust_float_ty fw).map fun rty =>
    (1, ⟨[fw, .I128], [.call name 0 rty (if ts then .i128 else .u128)]⟩)

set_option maxHeartbeats 1000000 in
/-- C4 (amended): the 128-bit runtime-routine name is a pure deterministic
function of signedness, float width and direction (`float128_name` /
`fix128_name`, used verbatim by the emitted call), distinct combinations give
distinct names, and exactly eight fixed names cover
to-float/from-float x signed/unsigned x binary32/binary64. -/
theorem c4_routine_naming_deterministic (fs ts : Bool) (fw : Ty)
    (hw : fw = .F32 ∨ fw = .F64) :
    (float128_name fs fw).isSome = true ∧
    (fix128_name ts fw).isSome = true ∧
    runCast ⟨none⟩ .I128 fs fw ts = call128ToFloat fs fw ∧
    runCast ⟨some false⟩ fw fs .I128 ts = call128FromFloat ts fw ∧
    Option.all (fun n => all128Names.contains n) (float128_name fs fw) = true ∧
    Option.all (fun n => all128Names.contains n) (fix128_name ts fw) = true ∧
    all128Names.Nodup ∧ all128Names.length = 8 := by
  revert fs ts fw
  decide

/-- Witness for C4 at a concrete instance: signed 128-bit and binary32. -/
theorem c4_routine_naming_deterministic_witness :
    (float128_name true .F32).isSome = true ∧
    (fix128_name false .F32).isSome = true ∧
    runCast ⟨none⟩ .I128 true .F32 false = call128ToFloat true .F32 ∧
    runCast ⟨some false⟩ .F32 true .I128 false = call128FromFloat false .F32 ∧
    Option.all (fun n => all128Names.contains n) (float128_name true .F32) = true ∧
    Option.all (fun n => all128Names.contains n) (fix128_name false .F32) = true ∧
    all128Names.Nodup ∧ all128Names.length = 8 :=
  c4_routine_naming_deterministic true false .F32 (Or.inl rfl)

/-- Reducing modulo a narrower width factors through a wider width. -/
theorem uencode_uencode {wf wt : ℕ} (h : wf ≤ wt) (x : ℤ) :
    uencode wf (uencode wt x) = uencode wf x :=
  Int.emod_emod_of_dvd x (pow_dvd_pow 2 h)

/-- Encoding back the signed reading of a pattern gives the pattern. -/
theorem uencode_sdecode (w : ℕ) (b : ℤ) :
    uencode w (sdecode w b) = uencode w b := by
  unfold sdecode uencode
  split_ifs with h
  · rfl
  · rw [Int.sub_emod, Int.emod_self, sub_zero, Int.emod_emod_of_dvd _ dvd_rfl]

/-- Encoding an in-range pattern is the identity. -/
theorem uencode_eq_self {w : ℕ} {b : ℤ} (h0 : 0 ≤ b) (h : b < 2 ^ w) :
    uencode w b = b :=
  Int.emod_eq_of_lt h0 h

/-- C5: widening with `clif_intcast` (sign- or zero-extend per the source
signedness) is lossless — reducing the widened value back to the source width
reproduces the original bit pattern exactly. -/
theorem c5_widening_lossless (impl : Impl) (wf wt : Ty) (hwf : wf.is_int = true)
    (hwt : wt.is_int = true) (hlt : wf.bits < wt.bits) (sgn sgn' : Bool) (b : ℤ)
    (hb0 : 0 ≤ b) (hb : b < 2 ^ wf.bits) :
    castVal impl (.intv wf.bits b)
      (clif_intcast (clif_intcast (initFx wf) 0 wt sgn).2
        (clif_intcast (initFx wf) 0 wt sgn).1 wf sgn') = .intv wf.bits b := by
  have hne : wf ≠ wt := fun h => by rw [h] at hlt; exact lt_irrefl _ hlt
  have hne' : wt ≠ wf := fun h => hne h.symm
  have hw1 : wt.wider_or_equal wf = true := by
    simp only [Ty.wider_or_equal, decide_eq_true_eq]; omega
  have hw2 : wf.wider_or_equal wt = false := by
    simp only [Ty.wider_or_equal, decide_eq_false_iff_not]; omega
  cases sgn <;>
    simp [clif_intcast, initFx, Fx.value_type, hne, hne', hw1, hw2,
      Fx.sextend, Fx.uextend, Fx.ireduce, Fx.emit, castVal, denote, evalInst] <;>
    rw [uencode_uencode hlt.le]
  · exact uencode_eq_self hb0 hb
  · rw [uencode_sdecode, uencode_eq_self hb0 hb]

/-- Witness for C5 at a concrete instance: unsigned 8-bit 200 widened to
32 bits and reduced back (the spec's 200 example). -/
theorem c5_widening_lossless_witness :
    (0 : ℤ) ≤ 200 ∧ (200 : ℤ) < 2 ^ Ty.I8.bits ∧
    castVal impl0 (.intv Ty.I8.bits 200)
      (clif_intcast (clif_intcast (initFx .I8) 0 .I32 false).2
        (clif_intcast (initFx .I8) 0 .I32 false).1 .I8 true) = .intv Ty.I8.bits 200 :=
  ⟨by decide, by decide,
    c5_widening_lossless impl0 .I8 .I32 rfl rfl (by decide) false true 200
      (by decide) (by decide)⟩

/-- C6: narrowing with `clif_intcast` emits a single `ireduce` and the result
is the low-order target-width bits of the input — two's-complement
wraparound, no rounding, no saturation. -/
theorem c6_narrowing_low_bits (impl : Impl) (wf wt : Ty) (hwf : wf.is_int = true)
    (hwt : wt.is_int = true) (hlt : wt.bits < wf.bits) (sgn : Bool) (b : ℤ) :
    clif_intcast (initFx wf) 0 wt sgn = (1, ⟨[wf, wt], [.ireduce wt 0]⟩) ∧
    castVal impl (.intv wf.bits b) (clif_intcast (initFx wf) 0 wt sgn) =
      .intv wt.bits (uencode wt.bits b) := by
  have hne : wf ≠ wt := fun h => by rw [h] at hlt; exact lt_irrefl _ hlt
  have hw2 : wt.wider_or_equal wf = false := by
    simp only [Ty.wider_or_equal, decide_eq_false_iff_not]; omega
  constructor <;>
    simp [clif_intcast, initFx, Fx.value_type, hne, hw2,
      Fx.ireduce, Fx.emit, castVal, denote, evalInst]

/-- Witness for C6 at a concrete instance: signed 32-bit `-1`
(pattern 4294967295) narrowed to 8 bits yields 255 (the spec's example). -/
theorem c6_narrowing_low_bits_witness :
    (Ty.I8.bits < Ty.I32.bits) ∧
    (clif_intcast (initFx .I32) 0 .I8 true = (1, ⟨[.I32, .I8], [.ireduce .I8 0]⟩) ∧
     castVal impl0 (.intv Ty.I32.bits (uencode Ty.I32.bits (-1)))
        (clif_intcast (initFx .I32) 0 .I8 true) =
      .intv Ty.I8.bits (uencode Ty.I8.bits (uencode Ty.I32.bits (-1)))) ∧
    uencode Ty.I8.bits (uencode Ty.I32.bits (-1)) = 255 :=
  ⟨by decide,
    c6_narrowing_low_bits impl0 .I32 .I8 rfl rfl (by decide) true
      (uencode Ty.I32.bits (-1)),
    by decide⟩

/-- C7: an integer cast between types of equal width is the identity: the
very same value handle is returned, no instruction is emitted, and the
signedness flag is irrelevant. -/
theorem c7_same_width_identity (fx : Fx) (v : Value) (tty : Ty) (sgn : Bool)
    (hs : (fx.value_type v).is_int = true) (ht : tty.is_int = true)
    (hb : (fx.value_type v).bits = tty.bits) :
    clif_intcast fx v tty sgn = (v, fx) := by
  have h : fx.value_type v = tty := by
    revert hs ht hb
    cases fx.value_type v <;> cases tty <;> decide
  simp [clif_intcast, h]

/-- Witness for C7 at a concrete instance: a 32-bit to 32-bit cast. -/
theorem c7_same_width_identity_witness :
    ((initFx .I32).value_type 0).is_int = true ∧
    clif_intcast (initFx .I32) 0 .I32 true = (0, initFx .I32) :=
  ⟨by decide, c7_same_width_identity (initFx .I32) 0 .I32 true rfl rfl rfl⟩

/-- C8: promoting a binary32 value to binary64 and demoting back reproduces
the value exactly (the demotion's standard rounding rule is the identity on
values binary32 can represent), and the same-width float-to-float cast
returns the input value with no instruction emitted. -/
theorem c8_promote_demote_roundtrip (impl : Impl) (sess sess' : Sess)
    (fs ts fs' ts' : Bool) (f : FloatVal) (h : Repr32Val f) :
    (∃ v1 fx1 v2 fx2,
      clif_int_or_float_cast sess (initFx .F32) 0 fs .F64 ts = some (v1, fx1) ∧
      clif_int_or_float_cast sess' fx1 v1 fs' .F32 ts' = some (v2, fx2) ∧
      castVal impl (.floatv f) (v2, fx2) = .floatv f) ∧
    clif_int_or_float_cast sess (initFx .F32) 0 fs .F32 ts = some (0, initFx .F32) ∧
    clif_int_or_float_cast sess (initFx .F64) 0 fs .F64 ts = some (0, initFx .F64) := by
  refine ⟨⟨1, _, 2, _, rfl, rfl, ?_⟩, rfl, rfl⟩
  show Val.floatv (impl.demote f) = Val.floatv f
  rw [impl.demote_exact f h]

/-- Witness for C8 at a concrete instance: the binary32 value 1. -/
theorem c8_promote_demote_roundtrip_witness :
    Repr32Val (.finite 1) ∧
    ((∃ v1 fx1 v2 fx2,
      clif_int_or_float_cast ⟨none⟩ (initFx .F32) 0 false .F64 false = some (v1, fx1) ∧
      clif_int_or_float_cast ⟨none⟩ fx1 v1 false .F32 false = some (v2, fx2) ∧
      castVal impl0 (.floatv (.finite 1)) (v2, fx2) = .floatv (.finite 1)) ∧
    clif_int_or_float_cast ⟨none⟩ (initFx .F32) 0 false .F32 false = some (0, initFx .F32) ∧
    clif_int_or_float_cast ⟨none⟩ (initFx .F64) 0 false .F64 false = some (0, initFx .F64)) :=
  have hr : Repr32Val (.finite 1) := ⟨1, 0, by norm_num⟩
  ⟨hr, c8_promote_demote_roundtrip impl0 ⟨none⟩ ⟨none⟩ false false false false (.finite 1) hr⟩

set_option maxHeartbeats 1000000 in
/-- C9: the lowering produces a value exactly when both the source and the
target type are numeric (integer or float); every pair outside the four
documented category combinations reaches the `unreachable!` abort, modelled
as `none`. -/
theorem c9_unreachable_outside_numeric (fl : Option Bool) (fty tty : Ty)
    (fs ts : Bool) :
    (runCast ⟨fl⟩ fty fs tty ts).isSome =
      ((fty.is_int || fty.is_float) && (tty.is_int || tty.is_float)) := by
  revert fl fty tty fs ts
  decide

/-- C10: the result of an integer-to-integer lowering does not depend on the
target-signedness flag: only the source signedness selects the extension. -/
theorem c10_int_cast_ignores_target_signedness (sess : Sess) (fx : Fx) (v : Value)
    (fs : Bool) (tty : Ty) (ts ts' : Bool)
    (hs : (fx.value_type v).is_int = true) (ht : tty.is_int = true) :
    clif_int_or_float_cast sess fx v fs tty ts =
      clif_int_or_float_cast sess fx v fs tty ts' := by
  unfold clif_int_or_float_cast
  simp [hs, ht]

/-- Witness for C10 at a concrete instance: unsigned 8-bit source to 32-bit
target, with the two target-signedness flags differing. -/
theorem c10_int_cast_ignores_target_signedness_witness :
    ((initFx .I8).value_type 0).is_int = true ∧
    clif_int_or_float_cast ⟨none⟩ (initFx .I8) 0 false .I32 true =
      clif_int_or_float_cast ⟨none⟩ (initFx .I8) 0 false .I32 false :=
  ⟨by decide,
    c10_int_cast_ignores_target_signedness ⟨none⟩ (initFx .I8) 0 false .I32 true false rfl rfl⟩
